import Mathlib

/-!
Shallow embedding of `src/components/layouts/PieChart.js`.

The component fetches a CSV of regional arms-import figures, transforms the
rows, and renders a pie chart with a legend and a hover tooltip.  Numeric
cells are modelled with `ℚ`; JavaScript `NaN` is modelled by `Option ℚ`
(`none` = not a number).  Strings, lists and rationals keep the pipeline
fully executable, so every concrete instance below can be settled by
evaluation.
-/

namespace PieChart

/-- Model of JavaScript `ToNumber` on a character list: unsigned decimal
exponent suffix `e`/`E` with optional sign.  Returns `none` for `NaN`.
(Exotic forms — hex literals, `Infinity` — are not modelled and map to
`none`; they do not occur in the dataset or in any input considered here.) -/
def stripNumSign : List Char → Bool × List Char
  | '-' :: rest => (true, rest)
  | '+' :: rest => (false, rest)
  | cs => (false, cs)

/-- Numeric value of a list of decimal digit characters. -/
def digitsVal (cs : List Char) : Nat :=
  cs.foldl (fun n c => 10 * n + (c.toNat - 48)) 0

/-- Parse an optional exponent suffix (`e`/`E`, optional sign, digits) and
apply it to `base`; any other non-empty remainder means `NaN`. -/
def parseExpSuffix (base : ℚ) : List Char → Option ℚ
  | [] => some base
  | e :: rest =>
    if e = 'e' ∨ e = 'E' then
      let sr := stripNumSign rest
      let ds := sr.2.takeWhile Char.isDigit
      if ds.isEmpty ∨ ¬(sr.2.dropWhile Char.isDigit).isEmpty then none
      else
        some (base * (10 : ℚ) ^ (if sr.1 then -(digitsVal ds : ℤ) else (digitsVal ds : ℤ)))
    else none

/-- Parse an unsigned decimal mantissa (`digits`, `digits.digits`,
`.digits`, `digits.`) followed by an optional exponent suffix. -/
def parseMantissa (cs : List Char) : Option ℚ :=
  let ip := cs.takeWhile Char.isDigit
  let rest1 := cs.dropWhile Char.isDigit
  match rest1 with
  | '.' :: rest2 =>
    let fp := rest2.takeWhile Char.isDigit
    let rest3 := rest2.dropWhile Char.isDigit
    if ip.isEmpty ∧ fp.isEmpty then none
    else parseExpSuffix ((digitsVal ip : ℚ) + (digitsVal fp : ℚ) / (10 : ℚ) ^ fp.length) rest3
  | _ =>
    if ip.isEmpty then none
    else parseExpSuffix (digitsVal ip : ℚ) rest1

/-- Strip leading and trailing whitespace from a character list (the
whitespace trimming `ToNumber` performs on strings). -/
def trimChars (cs : List Char) : List Char :=
  ((cs.dropWhile Char.isWhitespace).reverse.dropWhile Char.isWhitespace).reverse

/-- Model of the JavaScript unary `+` applied to a string (`+d[year]` in the
source): trimmed-empty strings give `0`, decimal literals give their value,
anything else gives `NaN` (= `none`). -/
def jsStringToNumber (s : String) : Option ℚ :=
  let t := trimChars s.data
  if t.isEmpty then some 0
  else
    let sc := stripNumSign t
    (parseMantissa sc.2).map (fun q => if sc.1 then -q else q)

/-- Model of `+d[year]` where the cell may be missing (`undefined`): a
missing cell is `NaN`. -/
def jsCellNumber (c : Option String) : Option ℚ :=
  match c with
  | none => none
  | some s => jsStringToNumber s

/-- One parsed CSV row: the `Imports by Regions` column plus the raw string
cell for each year column (PieChart.js line 29, a `d3.csv` row object). -/
structure RawRow where
  region : String
  cells : List (Nat × String)
deriving DecidableEq

/-- One slice datum `{region, armsTrade}` (PieChart.js lines 41–47). -/
structure RegionDatum where
  region : String
  armsTrade : ℚ
deriving DecidableEq

/-- `d[year] = +d[year] / 1000 || 0` (PieChart.js line 32) for a year in
1950–2023: a numeric cell is divided by 1000, `NaN` collapses to `0`
(`x || 0` is the identity on actual numbers, since `0 || 0 = 0`). -/
def transformCell (r : RawRow) (y : Nat) : ℚ :=
  match jsCellNumber (r.cells.lookup y) with
  | none => 0
  | some q => q / 1000

/-- `data.filter(d => d['Imports by Regions'] !== 'World total' && …)`
(PieChart.js lines 37–39). -/
def filteredData (rows : List RawRow) : List RawRow :=
  rows.filter (fun d => d.region != "World total" && d.region != "International organizations")

/-- Worker for `d3.group` + `values[0]`: keys in first-occurrence order,
each key paired with the transformed selected-year value of its first row;
`seen` holds the keys already emitted. -/
def regionArmsDataAux : List String → List RawRow → Nat → List RegionDatum
  | _, [], _ => []
  | seen, r :: rs, y =>
    if r.region ∈ seen then regionArmsDataAux seen rs y
    else ⟨r.region, transformCell r y⟩ :: regionArmsDataAux (r.region :: seen) rs y

/-- `Array.from(d3.group(filteredData, d => d['Imports by Regions']),
([region, values]) => ({region, armsTrade: values[0][selectedYear] || 0}))`
(PieChart.js lines 41–47).  `d3.group` keeps keys in first-occurrence order
and `values[0]` is the first row of each group; `|| 0` is the identity on
the already-numeric transformed cell. -/
def regionArmsData (l : List RawRow) (y : Nat) : List RegionDatum :=
  regionArmsDataAux [] l y

/-- `const totalArmsTrade = d3.sum(regionArmsData, d => d.armsTrade)`
(PieChart.js line 49). -/
def totalArmsTrade (rows : List RawRow) (y : Nat) : ℚ :=
  ((regionArmsData (filteredData rows) y).map (fun d => d.armsTrade)).sum

/-- Rounding to the nearest integer, halves away from zero — the idealized
rounding performed by `Number.prototype.toFixed`. -/
def jsRound (x : ℚ) : ℤ :=
  if 0 ≤ x then ⌊x + 1/2⌋ else -⌊-x + 1/2⌋

/-- Numeric value of `x.toFixed(2)` (PieChart.js line 65). -/
def toFixed2 (q : ℚ) : ℚ := (jsRound (q * 100) : ℚ) / 100

/-- Numeric value of `x.toFixed(1)` (PieChart.js line 126). -/
def toFixed1 (q : ℚ) : ℚ := (jsRound (q * 10) : ℚ) / 10

/-- The ten colors of `d3.schemeCategory10` (PieChart.js line 61). -/
def schemeCategory10 : List String :=
  ["#1f77b4", "#ff7f0e", "#2ca02c", "#d62728", "#9467bd",
   "#8c564b", "#e377c2", "#7f7f7f", "#bcbd22", "#17becf"]

/-- The domain accumulated by the per-render `colorScale`: it is created
fresh inside every `useEffect` run (PieChart.js line 61), and is fed the
region labels of `regionArmsData` in order (legend at line 64, slice fill
at line 81), so after a render its domain is exactly this label list. -/
def colorDomain (rows : List RawRow) (y : Nat) : List String :=
  (regionArmsData (filteredData rows) y).map (fun d => d.region)

/-- `colorScale(k)` for a label `k` occurring in the render: the ordinal
scale assigns range colors by the key's index in its domain, wrapping
modulo the range size. -/
def renderColor (rows : List RawRow) (y : Nat) (k : String) : String :=
  schemeCategory10.getD ((colorDomain rows y).indexOf k % 10) "black"

/-- One legend entry (PieChart.js lines 62–67); `percentage` models the
numeric value of the string `((d.armsTrade / totalArmsTrade) * 100).toFixed(2)`. -/
structure LegendEntry where
  region : String
  color : String
  percentage : ℚ
  armsTrade : ℚ
deriving DecidableEq

/-- `const legendInfo = regionArmsData.map(d => ({region, color, percentage,
armsTrade}))` (PieChart.js lines 62–67). -/
def legendInfo (rows : List RawRow) (y : Nat) : List LegendEntry :=
  (regionArmsData (filteredData rows) y).map
    (fun d => ⟨d.region, renderColor rows y d.region,
               toFixed2 (d.armsTrade / totalArmsTrade rows y * 100), d.armsTrade⟩)

/-- The title string `Arms Imports by Region (${selectedYear})`
(PieChart.js line 27). -/
def titleText (y : Nat) : String :=
  "Arms Imports by Region (" ++ toString y ++ ")"

/-- Elements appended to the SVG by one effect run: text nodes (title and
placeholder, identified by position and content), slice `path` nodes, and
percentage labels (carrying the numeric value of the rendered string). -/
inductive SvgElem where
  | textElem (x y : ℚ) (content : String)
  | slicePath (region : String) (fill : String)
  | sliceLabel (pct : ℚ)
deriving DecidableEq

/-- The SVG contents produced for successfully fetched rows (PieChart.js
lines 20–27 title, 52–59 zero-total placeholder and early return, 74–114
slice paths, 116–126 percentage labels). -/
def renderSvg (rows : List RawRow) (y : Nat) : List SvgElem :=
  if totalArmsTrade rows y = 0 then
    [.textElem 250 30 (titleText y), .textElem 250 300 "No data available for this year"]
  else
    [.textElem 250 30 (titleText y)]
      ++ (regionArmsData (filteredData rows) y).map
          (fun d => .slicePath d.region (renderColor rows y d.region))
      ++ (regionArmsData (filteredData rows) y).map
          (fun d => .sliceLabel (toFixed1 (d.armsTrade / totalArmsTrade rows y * 100)))

/-- Observable outcome of one `useEffect` run, given the settled fetch:
SVG contents, console logs, the `setLegendData` / `setTotalArmsTrade`
updates (`none` = not called), and any error propagated to the caller. -/
structure CycleResult where
  svg : List SvgElem
  logs : List String
  legendSet : Option (List LegendEntry)
  totalSet : Option ℚ
  raised : Option String

/-- One effect run (PieChart.js lines 12–130).  The title is appended
before the fetch resolves; `.catch` (lines 127–129) logs the error and ends
the chain, so a failed fetch leaves only the title, calls no state setter,
and propagates nothing.  On success the zero-total branch (lines 52–59)
skips `setLegendData`. -/
def runEffect (res : Except String (List RawRow)) (y : Nat) : CycleResult :=
  match res with
  | .error e =>
    { svg := [.textElem 250 30 (titleText y)]
      logs := ["Error loading data: " ++ e]
      legendSet := none
      totalSet := none
      raised := none }
  | .ok rows =>
    { svg := renderSvg rows y
      logs := []
      legendSet := if totalArmsTrade rows y = 0 then none else some (legendInfo rows y)
      totalSet := some (totalArmsTrade rows y)
      raised := none }

/-- The tooltip React state `{visible, x, y, content}` (PieChart.js line 8). -/
structure TooltipState where
  visible : Bool
  x : ℚ
  y : ℚ
  content : String
deriving DecidableEq

/-- The `mousemove` handler's state update (PieChart.js lines 99–105):
`setTooltip(prev => ({...prev, x: event.pageX + 10, y: event.pageY + 10}))`. -/
def mousemoveUpdate (pageX pageY : ℚ) (prev : TooltipState) : TooltipState :=
  { prev with x := pageX + 10, y := pageY + 10 }

/-- CSS `left` of the rendered tooltip div: `tooltip.x + 10`
(PieChart.js line 141). -/
def tooltipLeft (t : TooltipState) : ℚ := t.x + 10

/-- CSS `top` of the rendered tooltip div: `tooltip.y + 10`
(PieChart.js line 140). -/
def tooltipTop (t : TooltipState) : ℚ := t.y + 10

/-! ### Concrete row sets used as witnesses and counterexamples -/

/-- The end-to-end example row set of the spec: Europe 5000, Asia 3000 at 2020. -/
def rowsE2E : List RawRow :=
  [⟨"Europe", [(2020, "5000")]⟩, ⟨"Asia", [(2020, "3000")]⟩]

/-- A row whose 2020 cell is raw `"43452000"`; transformed value 43452,
i.e. 4.3452% of a 1,000,000 total. -/
def mkC1Row (nm : String) : RawRow := ⟨nm, [(2020, "43452000")]⟩

/-- 23 regions whose exact percentages are 4.3452 (22 times) and 4.4056:
each `toFixed(2)` rounds up, so the rounded percentages add to 100.11. -/
def rowsC1 : List RawRow :=
  [mkC1Row "A", mkC1Row "B", mkC1Row "C", mkC1Row "D", mkC1Row "E", mkC1Row "F",
   mkC1Row "G", mkC1Row "H", mkC1Row "I", mkC1Row "J", mkC1Row "K", mkC1Row "L",
   mkC1Row "M", mkC1Row "N", mkC1Row "O", mkC1Row "P", mkC1Row "Q", mkC1Row "R",
   mkC1Row "S", mkC1Row "T", mkC1Row "U", mkC1Row "V",
   ⟨"W", [(2020, "44056000")]⟩]

/-- A row set containing one of the reserved aggregate labels. -/
def rowsWT : List RawRow :=
  [⟨"World total", [(2020, "9999")]⟩, ⟨"Europe", [(2020, "5000")]⟩]

/-- A row set in which the label `"E"` occurs twice with different values. -/
def rowsDup : List RawRow :=
  [⟨"E", [(2020, "5000")]⟩, ⟨"E", [(2020, "3000")]⟩, ⟨"F", [(2020, "1000")]⟩]

/-- A row set whose only 2020 cell is non-numeric, so the 2020 total is 0. -/
def rowsNoData : List RawRow := [⟨"A", [(2020, "abc")]⟩]

/-- A row with a negative raw cell: `+"-5000" / 1000 || 0` keeps `-5`. -/
def rowsNeg : List RawRow := [⟨"A", [(2020, "-5000")]⟩]

/-- Two regions A, B: B is the second distinct label of this render. -/
def rowsTwo : List RawRow := [⟨"A", [(2020, "1000")]⟩, ⟨"B", [(2020, "1000")]⟩]

/-- One region B: B is the first distinct label of this render. -/
def rowsOne : List RawRow := [⟨"B", [(2020, "1000")]⟩]

/-- Same labels as `rowsTwo` in the same order, with different values. -/
def rowsTwoAlt : List RawRow := [⟨"A", [(2020, "7000")]⟩, ⟨"B", [(2020, "250")]⟩]

/-! ### Helper lemmas -/

lemma jsRound_abs_le (x : ℚ) : |(jsRound x : ℚ) - x| ≤ 1/2 := by
  unfold jsRound
  by_cases hx : 0 ≤ x
  · rw [if_pos hx]
    have h1 : ((⌊x + 1/2⌋ : ℤ) : ℚ) ≤ x + 1/2 := Int.floor_le _
    have h2 : x + 1/2 - 1 < ((⌊x + 1/2⌋ : ℤ) : ℚ) := Int.sub_one_lt_floor _
    rw [abs_le]
    constructor <;> linarith
  · rw [if_neg hx]
    have h1 : ((⌊-x + 1/2⌋ : ℤ) : ℚ) ≤ -x + 1/2 := Int.floor_le _
    have h2 : -x + 1/2 - 1 < ((⌊-x + 1/2⌋ : ℤ) : ℚ) := Int.sub_one_lt_floor _
    rw [abs_le]
    push_cast
    constructor <;> linarith

lemma toFixed2_abs_le (q : ℚ) : |toFixed2 q - q| ≤ 1/200 := by
  unfold toFixed2
  have h := jsRound_abs_le (q * 100)
  have heq : (jsRound (q * 100) : ℚ) / 100 - q = ((jsRound (q * 100) : ℚ) - q * 100) / 100 := by
    ring
  rw [heq, abs_div]
  have h100 : |(100 : ℚ)| = 100 := by norm_num
  rw [h100]
  linarith

lemma sum_toFixed2_abs_le (l : List ℚ) :
    |(l.map toFixed2).sum - l.sum| ≤ (l.length : ℚ) / 200 := by
  induction l with
  | nil => simp
  | cons a t ih =>
    simp only [List.map_cons, List.sum_cons, List.length_cons]
    have key : toFixed2 a + (t.map toFixed2).sum - (a + t.sum)
        = (toFixed2 a - a) + ((t.map toFixed2).sum - t.sum) := by ring
    rw [key]
    have h1 := toFixed2_abs_le a
    have h3 := abs_add (toFixed2 a - a) ((t.map toFixed2).sum - t.sum)
    push_cast
    have : ((t.length : ℚ) + 1) / 200 = 1/200 + (t.length : ℚ) / 200 := by ring
    rw [this]
    linarith

lemma sum_map_div_mul (l : List ℚ) (T : ℚ) :
    (l.map (fun a => a / T * 100)).sum = l.sum / T * 100 := by
  induction l with
  | nil => simp
  | cons a t ih =>
    simp only [List.map_cons, List.sum_cons, ih]
    ring

lemma sum_pct_eq_100 (l : List ℚ) (T : ℚ) (h0 : T ≠ 0) (hT : T = l.sum) :
    (l.map (fun a => a / T * 100)).sum = 100 := by
  rw [sum_map_div_mul, ← hT, div_self h0, one_mul]

lemma mem_regionArmsDataAux (y : Nat) :
    ∀ (l : List RawRow) (seen : List String) (d : RegionDatum),
      d ∈ regionArmsDataAux seen l y →
      d.region ∉ seen ∧ ∃ s ∈ l, d.region = s.region ∧ d.armsTrade = transformCell s y := by
  intro l
  induction l with
  | nil => intro seen d hd; simp [regionArmsDataAux] at hd
  | cons r rs ih =>
    intro seen d hd
    simp only [regionArmsDataAux] at hd
    by_cases hseen : r.region ∈ seen
    · rw [if_pos hseen] at hd
      obtain ⟨h1, s, hs, h2⟩ := ih seen d hd
      exact ⟨h1, s, List.mem_cons_of_mem _ hs, h2⟩
    · rw [if_neg hseen] at hd
      rcases List.mem_cons.mp hd with h | h
      · subst h
        exact ⟨hseen, r, List.mem_cons_self _ _, rfl, rfl⟩
      · obtain ⟨h1, s, hs, h2⟩ := ih (r.region :: seen) d h
        refine ⟨fun hc => h1 (List.mem_cons_of_mem _ hc), s, List.mem_cons_of_mem _ hs, h2⟩

lemma regionArmsDataAux_nodup (y : Nat) :
    ∀ (l : List RawRow) (seen : List String),
      ((regionArmsDataAux seen l y).map (fun d => d.region)).Nodup := by
  intro l
  induction l with
  | nil => intro seen; simp [regionArmsDataAux]
  | cons r rs ih =>
    intro seen
    simp only [regionArmsDataAux]
    by_cases hseen : r.region ∈ seen
    · rw [if_pos hseen]; exact ih seen
    · rw [if_neg hseen]
      simp only [List.map_cons, List.nodup_cons]
      refine ⟨fun hmem => ?_, ih (r.region :: seen)⟩
      obtain ⟨d, hd, hdr⟩ := List.mem_map.mp hmem
      have hns := (mem_regionArmsDataAux y rs (r.region :: seen) d hd).1
      apply hns
      rw [hdr]
      exact List.mem_cons_self _ _

lemma regionArmsDataAux_covers (y : Nat) :
    ∀ (l : List RawRow) (seen : List String) (s : RawRow),
      s ∈ l → s.region ∉ seen →
      ∃ d ∈ regionArmsDataAux seen l y, d.region = s.region := by
  intro l
  induction l with
  | nil => intro seen s hs _; simp at hs
  | cons r rs ih =>
    intro seen s hs hns
    simp only [regionArmsDataAux]
    rcases List.mem_cons.mp hs with h | h
    · subst h
      rw [if_neg hns]
      exact ⟨⟨s.region, transformCell s y⟩, List.mem_cons_self _ _, rfl⟩
    · by_cases hseen : r.region ∈ seen
      · rw [if_pos hseen]
        exact ih seen s h hns
      · rw [if_neg hseen]
        by_cases heq : s.region = r.region
        · exact ⟨⟨r.region, transformCell r y⟩, List.mem_cons_self _ _, heq.symm⟩
        · have hns' : s.region ∉ r.region :: seen := by
            intro hc
            rcases List.mem_cons.mp hc with hc1 | hc2
            · exact heq hc1
            · exact hns hc2
          obtain ⟨d, hd, hdr⟩ := ih (r.region :: seen) s h hns'
          exact ⟨d, List.mem_cons_of_mem _ hd, hdr⟩

lemma regionArmsDataAux_find_first (y : Nat) :
    ∀ (l : List RawRow) (seen : List String) (rg : String) (s0 : RawRow),
      rg ∉ seen → l.find? (fun s => s.region == rg) = some s0 →
      (regionArmsDataAux seen l y).find? (fun d => d.region == rg)
        = some ⟨rg, transformCell s0 y⟩ := by
  intro l
  induction l with
  | nil => intro seen rg s0 _ hf; simp at hf
  | cons r rs ih =>
    intro seen rg s0 hseen hf
    simp only [regionArmsDataAux]
    by_cases hr : r.region = rg
    · rw [List.find?_cons_of_pos (p := fun s => s.region == rg) rs (by simp [hr])] at hf
      have hs0 : s0 = r := (Option.some.inj hf).symm
      subst hs0
      have hrs : s0.region ∉ seen := by rw [hr]; exact hseen
      rw [if_neg hrs]
      rw [List.find?_cons_of_pos (p := fun d : RegionDatum => d.region == rg) _ (by simp [hr])]
      simp [hr]
    · rw [List.find?_cons_of_neg (p := fun s => s.region == rg) rs (by simp [hr])] at hf
      by_cases hseen2 : r.region ∈ seen
      · rw [if_pos hseen2]
        exact ih seen rg s0 hseen hf
      · rw [if_neg hseen2]
        rw [List.find?_cons_of_neg (p := fun d : RegionDatum => d.region == rg) _ (by simp [hr])]
        refine ih (r.region :: seen) rg s0 ?_ hf
        intro hc
        rcases List.mem_cons.mp hc with hc1 | hc2
        · exact hr hc1.symm
        · exact hseen hc2

/-! ### Claims

`Rat.add`/`mul`/`inv`/`sub` are shipped `@[irreducible]`; re-marking them
semireducible lets `decide` evaluate the pipeline on the concrete row sets
(the kernel accepts the unfolding either way). -/

attribute [local semireducible] Rat.add Rat.mul Rat.inv Rat.sub

set_option maxRecDepth 20000 in
/-- C1 (counterexample): the claim "for every parsed row set with positive
selected-year total, the sum of the legend's rounded percentages is within
±0.1 of 100" fails: for the 23-region row set `rowsC1` at year 2020 the
total is 1,000,000 > 0 but the rounded percentages add to 100.11, which is
0.11 away from 100. -/
theorem legend_percentage_sum_tolerance_cex :
    0 < totalArmsTrade rowsC1 2020 ∧
    ¬ |((legendInfo rowsC1 2020).map (fun e => e.percentage)).sum - 100| ≤ 1/10 := by
  decide

/-- C1 (amended): with at most 20 regions (the ±0.1 tolerance divided by
the per-entry rounding error of 0.005) and a positive total, the sum of the
legend's percentages, each rounded to 2 decimal places, lies within ±0.1 of
100. -/
theorem legend_percentage_sum_bound (rows : List RawRow) (y : Nat)
    (hT : 0 < totalArmsTrade rows y)
    (hn : (regionArmsData (filteredData rows) y).length ≤ 20) :
    |((legendInfo rows y).map (fun e => e.percentage)).sum - 100| ≤ 1/10 := by
  have hmap : (legendInfo rows y).map (fun e => e.percentage)
      = ((regionArmsData (filteredData rows) y).map
          (fun d => d.armsTrade / totalArmsTrade rows y * 100)).map toFixed2 := by
    simp [legendInfo, List.map_map, Function.comp]
  have h1 : (regionArmsData (filteredData rows) y).map
      (fun d => d.armsTrade / totalArmsTrade rows y * 100)
      = ((regionArmsData (filteredData rows) y).map (fun d => d.armsTrade)).map
        (fun a => a / totalArmsTrade rows y * 100) := by
    simp [List.map_map, Function.comp]
  have hsum : ((regionArmsData (filteredData rows) y).map
      (fun d => d.armsTrade / totalArmsTrade rows y * 100)).sum = 100 := by
    rw [h1]
    exact sum_pct_eq_100 _ _ (ne_of_gt hT) rfl
  have hb := sum_toFixed2_abs_le ((regionArmsData (filteredData rows) y).map
      (fun d => d.armsTrade / totalArmsTrade rows y * 100))
  rw [hsum, List.length_map] at hb
  rw [hmap]
  have hn' : ((regionArmsData (filteredData rows) y).length : ℚ) ≤ 20 := by
    exact_mod_cast hn
  calc |(((regionArmsData (filteredData rows) y).map
          (fun d => d.armsTrade / totalArmsTrade rows y * 100)).map toFixed2).sum - 100|
      ≤ ((regionArmsData (filteredData rows) y).length : ℚ) / 200 := hb
    _ ≤ 20 / 200 := by linarith
    _ ≤ 1/10 := by norm_num

/-- C1 (witness): the spec's end-to-end example (Europe 5000, Asia 3000 at
2020) has total 8 > 0 and 2 ≤ 20 regions, and its rounded percentages
62.50 + 37.50 sum to exactly 100. -/
theorem legend_percentage_sum_bound_w :
    |((legendInfo rowsE2E 2020).map (fun e => e.percentage)).sum - 100| ≤ 1/10 :=
  legend_percentage_sum_bound rowsE2E 2020 (by decide) (by decide)

/-- C2: for every row and every year in 1950–2023, a cell that parses to a
number `q` is transformed to exactly `q / 1000`, and a missing or
non-numeric cell is transformed to exactly 0 (PieChart.js line 32). -/
theorem transformCell_numeric_or_zero (r : RawRow) (y : Nat)
    (hy1 : 1950 ≤ y) (hy2 : y ≤ 2023) :
    (∀ q : ℚ, jsCellNumber (r.cells.lookup y) = some q → transformCell r y = q / 1000) ∧
    (jsCellNumber (r.cells.lookup y) = none → transformCell r y = 0) := by
  constructor
  · intro q hq
    unfold transformCell
    rw [hq]
  · intro hq
    unfold transformCell
    rw [hq]

/-- C2 (witness): the numeric cell `"5000"` at 2020 becomes 5000/1000 = 5;
the non-numeric cell `"abc"` becomes exactly 0. -/
theorem transformCell_numeric_or_zero_w :
    transformCell ⟨"Europe", [(2020, "5000")]⟩ 2020 = 5 ∧
    transformCell ⟨"Asia", [(2020, "abc")]⟩ 2020 = 0 := by
  constructor
  · have h := (transformCell_numeric_or_zero ⟨"Europe", [(2020, "5000")]⟩ 2020
      (by norm_num) (by norm_num)).1 5000 (by decide)
    rw [h]
    norm_num
  · exact (transformCell_numeric_or_zero ⟨"Asia", [(2020, "abc")]⟩ 2020
      (by norm_num) (by norm_num)).2 (by decide)

/-- C3: every region datum produced by the transformer has a label that is
neither `"World total"` nor `"International organizations"`; rows with
those labels are dropped by the filter before grouping (lines 37–39). -/
theorem regions_exclude_aggregates (rows : List RawRow) (y : Nat) (d : RegionDatum)
    (hd : d ∈ regionArmsData (filteredData rows) y) :
    d.region ≠ "World total" ∧ d.region ≠ "International organizations" := by
  obtain ⟨-, s, hs, hreg, -⟩ := mem_regionArmsDataAux y (filteredData rows) [] d hd
  simp only [filteredData, List.mem_filter, Bool.and_eq_true, bne_iff_ne, ne_eq] at hs
  rw [hreg]
  exact hs.2

/-- C3 (witness): on a row set containing a `"World total"` row and a
`"Europe"` row, the datum ⟨Europe, 5⟩ is produced and its label is neither
reserved aggregate. -/
theorem regions_exclude_aggregates_w :
    (⟨"Europe", 5⟩ : RegionDatum).region ≠ "World total" ∧
    (⟨"Europe", 5⟩ : RegionDatum).region ≠ "International organizations" :=
  regions_exclude_aggregates rowsWT 2020 ⟨"Europe", 5⟩ (by decide)

/-- C4: when a region label occurs in two or more (filtered) rows, the
datum produced for it carries the transformed selected-year value of the
first such row — `values[0]` of the `d3.group` bucket — and the later
occurrences are ignored, not summed (lines 41–47). -/
theorem duplicate_region_first_wins (rows : List RawRow) (y : Nat)
    (rg : String) (s0 : RawRow)
    (hdup : 2 ≤ (filteredData rows).countP (fun s => s.region == rg))
    (hfind : (filteredData rows).find? (fun s => s.region == rg) = some s0) :
    (regionArmsData (filteredData rows) y).find? (fun d => d.region == rg)
      = some ⟨rg, transformCell s0 y⟩ :=
  regionArmsDataAux_find_first y (filteredData rows) [] rg s0 (by simp) hfind

/-- C4 (witness): with rows E↦5000, E↦3000, F↦1000 the datum for `"E"` is
⟨E, 5⟩ — the first occurrence's 5000/1000, not the sum 8. -/
theorem duplicate_region_first_wins_w :
    (regionArmsData (filteredData rowsDup) 2020).find? (fun d => d.region == "E")
      = some ⟨"E", 5⟩ := by
  have h := duplicate_region_first_wins rowsDup 2020 "E" ⟨"E", [(2020, "5000")]⟩
    (by decide) (by decide)
  rw [h]
  decide

/-- C5: when the computed total is 0 the rendered SVG contains the
"No data available for this year" placeholder and no slice paths; the
zero-total branch returns normally (lines 52–59), it is not an error. -/
theorem zero_total_no_data (rows : List RawRow) (y : Nat)
    (hT : totalArmsTrade rows y = 0) :
    SvgElem.textElem 250 300 "No data available for this year" ∈ renderSvg rows y ∧
    ∀ rg fl, SvgElem.slicePath rg fl ∉ renderSvg rows y := by
  unfold renderSvg
  rw [if_pos hT]
  refine ⟨by simp, fun rg fl hmem => ?_⟩
  simp at hmem

/-- C5 (witness): the row set whose only 2020 cell is the non-numeric
`"abc"` has total 0, renders the placeholder and no slice paths. -/
theorem zero_total_no_data_w :
    SvgElem.textElem 250 300 "No data available for this year" ∈ renderSvg rowsNoData 2020 ∧
    ∀ rg fl, SvgElem.slicePath rg fl ∉ renderSvg rowsNoData 2020 :=
  zero_total_no_data rowsNoData 2020 (by decide)

/-- C6: for every failed fetch/parse and every year, the effect run logs
the error to the console, appends nothing to the SVG beyond the title
written before the fetch (in particular no slice path), calls neither state
setter, and propagates no error to the caller; `runEffect` performs exactly
one fetch attempt per cycle, so no retry exists in the model. -/
theorem fetch_failure_logged_no_render (e : String) (y : Nat) :
    (runEffect (.error e) y).logs = ["Error loading data: " ++ e] ∧
    (runEffect (.error e) y).svg = [.textElem 250 30 (titleText y)] ∧
    (∀ rg fl, SvgElem.slicePath rg fl ∉ (runEffect (.error e) y).svg) ∧
    (runEffect (.error e) y).legendSet = none ∧
    (runEffect (.error e) y).totalSet = none ∧
    (runEffect (.error e) y).raised = none := by
  refine ⟨rfl, rfl, fun rg fl hmem => ?_, rfl, rfl, rfl⟩
  simp [runEffect] at hmem

/-- C7 (counterexample): the claim "tooltip position = pointer position
+ 10px in each axis" fails: after a mousemove at pointer (0, 0) the
rendered tooltip sits at left = top = 20, not 0 + 10, because the state
update adds 10 (line 102–103) and the rendered div adds 10 again
(lines 140–141). -/
theorem tooltip_offset_cex :
    tooltipLeft (mousemoveUpdate 0 0 ⟨true, 0, 0, ""⟩) = 20 ∧
    tooltipTop (mousemoveUpdate 0 0 ⟨true, 0, 0, ""⟩) = 20 ∧
    (20 : ℚ) ≠ 0 + 10 := by
  refine ⟨by decide, by decide, by norm_num⟩

/-- C7 (amended): on every mousemove the tooltip state is repositioned to
pointer + 10px in each axis, and the rendered tooltip element adds a
further fixed 10px, so the on-screen tooltip tracks the pointer at a fixed
offset of +20px in each axis. -/
theorem tooltip_move_offsets (pageX pageY : ℚ) (prev : TooltipState) :
    (mousemoveUpdate pageX pageY prev).x = pageX + 10 ∧
    (mousemoveUpdate pageX pageY prev).y = pageY + 10 ∧
    tooltipLeft (mousemoveUpdate pageX pageY prev) = pageX + 20 ∧
    tooltipTop (mousemoveUpdate pageX pageY prev) = pageY + 20 := by
  refine ⟨rfl, rfl, ?_, ?_⟩ <;>
    simp [tooltipLeft, tooltipTop, mousemoveUpdate] <;> ring

/-- C8 (counterexample): the claim "every RegionDatum's selected-year value
is ≥ 0" fails: the raw cell `"-5000"` survives `+x / 1000 || 0` as −5, so
the row set `rowsNeg` produces the datum ⟨A, −5⟩ with a negative value. -/
theorem region_value_nonneg_cex :
    regionArmsData (filteredData rowsNeg) 2020 = [⟨"A", -5⟩] ∧ (-5 : ℚ) < 0 := by
  decide

/-- C8 (amended): the transformer's output has exactly one datum per
distinct region label (labels are pairwise distinct and every filtered
row's label appears), and every datum's value is ≥ 0 provided each raw
selected-year cell is non-numeric or parses to a non-negative number. -/
theorem regionArmsData_unique_nonneg (rows : List RawRow) (y : Nat)
    (hnn : ∀ r ∈ rows, ∀ q : ℚ, jsCellNumber (r.cells.lookup y) = some q → 0 ≤ q) :
    ((regionArmsData (filteredData rows) y).map (fun d => d.region)).Nodup ∧
    (∀ s ∈ filteredData rows, ∃ d ∈ regionArmsData (filteredData rows) y,
      d.region = s.region) ∧
    (∀ d ∈ regionArmsData (filteredData rows) y, 0 ≤ d.armsTrade) := by
  refine ⟨regionArmsDataAux_nodup y (filteredData rows) [],
    fun s hs => regionArmsDataAux_covers y (filteredData rows) [] s hs (by simp),
    fun d hd => ?_⟩
  obtain ⟨-, s, hs, -, hval⟩ := mem_regionArmsDataAux y (filteredData rows) [] d hd
  have hsrows : s ∈ rows := by
    have hs' := hs
    simp only [filteredData, List.mem_filter] at hs'
    exact hs'.1
  rw [hval]
  unfold transformCell
  cases hc : jsCellNumber (s.cells.lookup y) with
  | none => exact le_refl 0
  | some q => exact div_nonneg (hnn s hsrows q hc) (by norm_num)

/-- C8 (witness): on the spec's example rows (Europe 5000, Asia 3000,
non-negative cells) the labels are distinct, both regions appear, and all
values are ≥ 0. -/
theorem regionArmsData_unique_nonneg_w :
    ((regionArmsData (filteredData rowsE2E) 2020).map (fun d => d.region)).Nodup ∧
    (∀ s ∈ filteredData rowsE2E, ∃ d ∈ regionArmsData (filteredData rowsE2E) 2020,
      d.region = s.region) ∧
    (∀ d ∈ regionArmsData (filteredData rowsE2E) 2020, 0 ≤ d.armsTrade) := by
  apply regionArmsData_unique_nonneg
  intro r hr q hq
  have hr' : r = (⟨"Europe", [(2020, "5000")]⟩ : RawRow) ∨
      r = (⟨"Asia", [(2020, "3000")]⟩ : RawRow) := by
    simpa [rowsE2E] using hr
  rcases hr' with h | h <;> subst h
  · have h5 : jsCellNumber ((⟨"Europe", [(2020, "5000")]⟩ : RawRow).cells.lookup 2020)
        = some 5000 := by decide
    have hq5 : (5000 : ℚ) = q := Option.some.inj (h5.symm.trans hq)
    exact le_of_le_of_eq (by norm_num) hq5
  · have h3 : jsCellNumber ((⟨"Asia", [(2020, "3000")]⟩ : RawRow).cells.lookup 2020)
        = some 3000 := by decide
    have hq3 : (3000 : ℚ) = q := Option.some.inj (h3.symm.trans hq)
    exact le_of_le_of_eq (by norm_num) hq3

/-- C9 (counterexample): the claim "a region appearing in two renders gets
the same color, keyed by label" fails: `colorScale` is re-created inside
every `useEffect` run (line 61), so colors depend on the region's position
among that render's distinct labels.  `"B"` is colored `#ff7f0e` in a
render of rows A,B but `#1f77b4` in a render of row B alone. -/
theorem color_stability_cex :
    "B" ∈ colorDomain rowsTwo 2020 ∧ "B" ∈ colorDomain rowsOne 2020 ∧
    renderColor rowsTwo 2020 "B" ≠ renderColor rowsOne 2020 "B" := by
  decide

/-- C9 (amended): color assignment is a function of the render's sequence
of distinct region labels: two renders that derive the same label sequence
assign every region the same color, whatever the underlying values. -/
theorem color_stable_of_same_domain (rows1 rows2 : List RawRow) (y1 y2 : Nat)
    (k : String) (h : colorDomain rows1 y1 = colorDomain rows2 y2) :
    renderColor rows1 y1 k = renderColor rows2 y2 k := by
  unfold renderColor
  rw [h]

/-- C9 (witness): two renders over rows with equal label sequences A,B but
different values color `"B"` identically. -/
theorem color_stable_of_same_domain_w :
    renderColor rowsTwo 2020 "B" = renderColor rowsTwoAlt 2020 "B" :=
  color_stable_of_same_domain rowsTwo rowsTwoAlt 2020 2020 "B" (by decide)

/-- C10: the mousemove state update `setTooltip(prev => ({...prev, x, y}))`
(lines 99–105) changes only the position fields: the visible flag and the
content string keep their previous values, for every pointer position and
every prior state. -/
theorem mousemove_frame_effect (pageX pageY : ℚ) (prev : TooltipState) :
    (mousemoveUpdate pageX pageY prev).visible = prev.visible ∧
    (mousemoveUpdate pageX pageY prev).content = prev.content :=
  ⟨rfl, rfl⟩

end PieChart
